import Mathlib

/-!
Verification of the pactum mock-server core: the interaction registry and
matching engine of src/models/server.js and the Spec orchestrator lifecycle
(fetch dispatch and toss) of the Spec class.

JS Maps are modelled as insertion-ordered association lists; the Express
response object is modelled as a record where each res.set/res.status/res.send
of the dispatch loop overwrites the pending response, the last write being
what is flushed to the client.
-/

namespace Pactum

/-- Request/response bodies, abstracted to their canonical serialization;
deep structural equality of JSON values is equality of serializations. -/
abbrev Body := String

/-- The match predicate of an interaction: withRequest in server.js and the
Interaction doc of the Spec class.  A missing (undefined) constraint is none. -/
structure ReqSpec where
  method : String
  path : String
  query : Option (List (String × String)) := none
  headers : Option (List (String × String)) := none
  body : Option Body := none
deriving DecidableEq

/-- The canned response of an interaction: willRespondWith. -/
structure RespSpec where
  status : Nat
  headers : List (String × String) := []
  body : Body := ""
deriving DecidableEq

/-- An interaction as stored in a port registry. -/
structure Interaction where
  port : Nat
  withRequest : ReqSpec
  willRespondWith : RespSpec
  exercised : Bool := false
deriving DecidableEq

/-- Modelled from the spec: the Interaction constructor (interaction.js is not
under src/) sets the exercised flag to false at creation time. -/
def mkInteraction (port : Nat) (wreq : ReqSpec) (wres : RespSpec) : Interaction :=
  { port := port, withRequest := wreq, willRespondWith := wres, exercised := false }

/-- An inbound HTTP request as seen by the dispatch handler (method, path,
parsed query, headers, parsed body). -/
structure Request where
  method : String
  path : String
  query : List (String × String) := []
  headers : List (String × String) := []
  body : Body := ""
deriving DecidableEq

/-- What the dispatch handler writes onto the connection. -/
structure HttpResponse where
  status : Nat
  headers : List (String × String) := []
  body : Body := ""
deriving DecidableEq

/-- JS Map.prototype.get: first binding of the key, if any. -/
def mapGet {K V : Type} [DecidableEq K] : List (K × V) → K → Option V
  | [], _ => none
  | (k, v) :: rest, k' => if k = k' then some v else mapGet rest k'

/-- JS Map.prototype.set: replace the binding in place, else append. -/
def mapSet {K V : Type} [DecidableEq K] : List (K × V) → K → V → List (K × V)
  | [], k, v => [(k, v)]
  | (k', v') :: rest, k, v =>
      if k' = k then (k, v) :: rest else (k', v') :: mapSet rest k v

/-- JS Map.prototype.delete: drop the binding of the key. -/
def mapDelete {K V : Type} [DecidableEq K] : List (K × V) → K → List (K × V)
  | [], _ => []
  | (k', v') :: rest, k => if k' = k then rest else (k', v') :: mapDelete rest k

/-- Modelled from the spec: helper.validateQuery (helper.js is not under src/):
every declared query key must be present in the request with an equal value;
extra request keys are not checked. -/
def validateQuery (actual declared : List (String × String)) : Bool :=
  declared.all fun kv => mapGet actual kv.1 == some kv.2

/-- Modelled from the spec: helper.validateHeaders (helper.js is not under
src/): every declared header key must be present with an equal value; extra
request headers are ignored. -/
def validateHeaders (actual declared : List (String × String)) : Bool :=
  declared.all fun kv => mapGet actual kv.1 == some kv.2

/-- Modelled from the spec: helper.validateBody (helper.js is not under src/):
deep structural equality between request body and declared body. -/
def validateBody (actual declared : Body) : Bool :=
  actual == declared

/-- The per-interaction predicate of the dispatch handler in Server.start:
method equality, path equality, and the three optional constraints, each
vacuously true when undeclared. -/
def matchesReq (i : Interaction) (req : Request) : Bool :=
  (i.withRequest.method == req.method) &&
  (i.withRequest.path == req.path) &&
  (match i.withRequest.query with
   | none => true
   | some q => validateQuery req.query q) &&
  (match i.withRequest.headers with
   | none => true
   | some hs => validateHeaders req.headers hs) &&
  (match i.withRequest.body with
   | none => true
   | some b => validateBody req.body b)

/-- The fixed not-found response of the dispatch handler. -/
def notFoundResponse : HttpResponse :=
  { status := 404, headers := [], body := "Interaction Not Found" }

/-- The response a matching interaction writes: res.set(headers),
res.status(status), res.send(body). -/
def respondWith (i : Interaction) : HttpResponse :=
  { status := i.willRespondWith.status
    headers := i.willRespondWith.headers
    body := i.willRespondWith.body }

/-- The for-loop of the dispatch handler in Server.start, threading the
interactionExercised flag and the pending response: every matching
interaction is marked exercised and overwrites the pending response. -/
def scanRegistry (req : Request) :
    List (String × Interaction) → Bool → Option HttpResponse →
    List (String × Interaction) × Bool × Option HttpResponse
  | [], ex, resp => ([], ex, resp)
  | (id, i) :: rest, ex, resp =>
      if matchesReq i req then
        let out := scanRegistry req rest true (some (respondWith i))
        ((id, { i with exercised := true }) :: out.1, out.2)
      else
        let out := scanRegistry req rest ex resp
        ((id, i) :: out.1, out.2)

/-- The whole dispatch handler: run the loop, then send 404 Interaction Not
Found when no interaction was exercised. -/
def handleRequest (reg : List (String × Interaction)) (req : Request) :
    List (String × Interaction) × HttpResponse :=
  let out := scanRegistry req reg false none
  if out.2.1 then (out.1, out.2.2.getD notFoundResponse)
  else (out.1, notFoundResponse)

/-- The per-port mock state: running flag plus interaction registry (the
listener handle carries no modelled state). -/
structure MockState where
  running : Bool
  interactions : List (String × Interaction)
deriving DecidableEq

/-- The Server: a process-wide map from port to mock state. -/
structure ServerState where
  mockMap : List (Nat × MockState)
deriving DecidableEq

/-- Server.start: no-op when the port is present and running; otherwise
install a fresh mock state with an empty registry and mark it running. -/
def ServerState.start (sv : ServerState) (port : Nat) : ServerState :=
  match mapGet sv.mockMap port with
  | some m =>
      if m.running then sv
      else { mockMap := mapSet sv.mockMap port { running := true, interactions := [] } }
  | none => { mockMap := mapSet sv.mockMap port { running := true, interactions := [] } }

/-- Server.stop: when present and running, mark not running; otherwise no-op.
The registry is untouched. -/
def ServerState.stop (sv : ServerState) (port : Nat) : ServerState :=
  match mapGet sv.mockMap port with
  | some m =>
      if m.running then
        { mockMap := mapSet sv.mockMap port { m with running := false } }
      else sv
  | none => sv

/-- Server.addInteraction: insert into the registry of interaction.port when
that port has a mock state; otherwise do nothing. -/
def ServerState.addInteraction (sv : ServerState) (id : String) (i : Interaction) :
    ServerState :=
  match mapGet sv.mockMap i.port with
  | some m =>
      { mockMap := mapSet sv.mockMap i.port
          { m with interactions := mapSet m.interactions id i } }
  | none => sv

/-- Server.removeInteraction: delete the id from the registry of the port when
that port has a mock state; otherwise do nothing. -/
def ServerState.removeInteraction (sv : ServerState) (port : Nat) (id : String) :
    ServerState :=
  match mapGet sv.mockMap port with
  | some m =>
      { mockMap := mapSet sv.mockMap port
          { m with interactions := mapDelete m.interactions id } }
  | none => sv

/-- Server.removeInteractions: clear the registry of one port. -/
def ServerState.removeInteractions (sv : ServerState) (port : Nat) : ServerState :=
  match mapGet sv.mockMap port with
  | some m => { mockMap := mapSet sv.mockMap port { m with interactions := [] } }
  | none => sv

/-- Server.removeAllInteractions: clear the registry of every port. -/
def ServerState.removeAllInteractions (sv : ServerState) : ServerState :=
  { mockMap := sv.mockMap.map fun p => (p.1, { p.2 with interactions := [] }) }

/-- Request dispatch on a port: run the handler against that port registry and
store the updated registry back. -/
def ServerState.handle (sv : ServerState) (port : Nat) (req : Request) :
    ServerState × HttpResponse :=
  match mapGet sv.mockMap port with
  | some m =>
      let out := handleRequest m.interactions req
      ({ mockMap := mapSet sv.mockMap port { m with interactions := out.1 } }, out.2)
  | none => (sv, notFoundResponse)

/-- Registry of a port, when the port has a mock state. -/
def registryOf (sv : ServerState) (port : Nat) : Option (List (String × Interaction)) :=
  (mapGet sv.mockMap port).map MockState.interactions

/-- Running flag of a port, when the port has a mock state. -/
def runningOf (sv : ServerState) (port : Nat) : Option Bool :=
  (mapGet sv.mockMap port).map MockState.running

/-- Interaction stored under an id in a port registry. -/
def lookupInteraction (sv : ServerState) (port : Nat) (id : String) : Option Interaction :=
  (registryOf sv port).bind fun reg => mapGet reg id

/-! The Spec orchestrator (the Spec class): outbound fetch dispatch and the
toss lifecycle. -/

/-- The request-promise verb functions that Spec.fetch can invoke: the switch
in the source calls only rp.get and rp.post. -/
inductive RpVerb where
  | get
  | post
deriving DecidableEq

/-- Spec.fetch: switch on the configured method string; the only cases are
GET and POST, everything else falls to the default, which is rp.get. -/
def fetchVerb (method : String) : RpVerb :=
  match method with
  | "GET" => RpVerb.get
  | "POST" => RpVerb.post
  | _ => RpVerb.get

/-- The mutable request configuration built by the verb methods of Spec. -/
structure RequestConfig where
  url : String := ""
  method : String := ""
deriving DecidableEq

/-- Spec.get: set url and method GET. -/
def Spec.get (r : RequestConfig) (url : String) : RequestConfig :=
  { r with url := url, method := "GET" }

/-- Spec.head: set url and method HEAD. -/
def Spec.head (r : RequestConfig) (url : String) : RequestConfig :=
  { r with url := url, method := "HEAD" }

/-- Spec.options: set url and method OPTIONS. -/
def Spec.options (r : RequestConfig) (url : String) : RequestConfig :=
  { r with url := url, method := "OPTIONS" }

/-- Spec.patch: set url and method PATCH. -/
def Spec.patch (r : RequestConfig) (url : String) : RequestConfig :=
  { r with url := url, method := "PATCH" }

/-- Spec.post: set url and method POST. -/
def Spec.post (r : RequestConfig) (url : String) : RequestConfig :=
  { r with url := url, method := "POST" }

/-- Spec.put: set url and method PUT. -/
def Spec.put (r : RequestConfig) (url : String) : RequestConfig :=
  { r with url := url, method := "PUT" }

/-- Spec.delete: set url and method DELETE. -/
def Spec.delete (r : RequestConfig) (url : String) : RequestConfig :=
  { r with url := url, method := "DELETE" }

/-- The response captured by toss: either the full response of a successful
call, or the caught error object substituted in its place. -/
structure ResponseRecord where
  status : Nat
  headers : List (String × String) := []
  body : Body := ""
deriving DecidableEq

/-- Modelled from the spec: Expect.validateInteractions (expect.js is not
under src/): every interaction registered by the invocation must have
exercised equal to true, else an unexercised-interaction error is raised. -/
def validateInteractions (ixs : List (String × Interaction)) : Bool :=
  ixs.all fun p => p.2.exercised

/-- Observable steps of one toss invocation, in the order they are
performed. -/
inductive Event where
  | registered (id : String)
  | fetched
  | storedHistory (id : String)
  | deregistered (port : Nat) (id : String)
  | exercisedCheck
  | expectationsCheck
deriving DecidableEq

/-- Register every interaction of the invocation into the server: the first
loop of toss. -/
def registerAll (sv : ServerState) (ixs : List (String × Interaction)) : ServerState :=
  ixs.foldl (fun s p => s.addInteraction p.1 p.2) sv

/-- The inbound requests the mock server handles while the outbound call is
in flight (the only suspension point of the invocation). -/
def serveAll (sv : ServerState) (inbound : List (Nat × Request)) : ServerState :=
  inbound.foldl (fun s pr => (s.handle pr.1 pr.2).1) sv

/-- Deregister every interaction of the invocation: the second loop of toss
removes each id from the registry of its port. -/
def deregisterAll (sv : ServerState) (ixs : List (String × Interaction)) : ServerState :=
  ixs.foldl (fun s p => s.removeInteraction p.2.port p.1) sv

/-- The interactions as the Spec object sees them after the fetch window.
In the source the server registry stores the very objects held in
Spec.interactions, so the in-place exercised mutations made by the dispatch
handler are visible to the Spec; here that aliasing is modelled by reading
each id back from the registry of its port. -/
def specView (sv : ServerState) (ixs : List (String × Interaction)) :
    List (String × Interaction) :=
  ixs.map fun p =>
    match lookupInteraction sv p.2.port p.1 with
    | some i => (p.1, i)
    | none => p

/-- Result of one toss invocation: final server state, the trace of observable
steps, the observed response (a caught network error is substituted as the
response rather than propagated), and whether validation passed phase one. -/
structure TossResult where
  server : ServerState
  trace : List Event
  response : Except String ResponseRecord
  ok : Bool

/-- Spec.toss: register all interactions, await the outbound call (catching a
network failure and substituting the error as the observed response), hand
each interaction to the history store and remove it from its port registry,
then validate: first the exercised check over the invocation interactions,
then, only when that passes, the expectation assertions. -/
def toss (sv : ServerState) (ixs : List (String × Interaction))
    (fetchResult : Except String ResponseRecord) (inbound : List (Nat × Request)) :
    TossResult :=
  let sv1 := registerAll sv ixs
  let sv2 := serveAll sv1 inbound
  let sv3 := deregisterAll sv2 ixs
  let pass := validateInteractions (specView sv2 ixs)
  { server := sv3
    trace :=
      (ixs.map fun p => Event.registered p.1) ++ [Event.fetched] ++
      (ixs.flatMap fun p => [Event.storedHistory p.1, Event.deregistered p.2.port p.1]) ++
      (if pass then [Event.exercisedCheck, Event.expectationsCheck]
       else [Event.exercisedCheck])
    response := fetchResult
    ok := pass }

/-- Every port registry has pairwise-distinct interaction ids. -/
def goodKeys (sv : ServerState) : Bool :=
  sv.mockMap.all fun p => decide (p.2.interactions.map Prod.fst).Nodup

/-- One server operation, for stating registry invariants over arbitrary
operation sequences. -/
inductive Op where
  | start (port : Nat)
  | stop (port : Nat)
  | add (id : String) (i : Interaction)
  | removeOne (port : Nat) (id : String)
  | removeFor (port : Nat)
  | removeAll
  | handle (port : Nat) (req : Request)

/-- Apply one server operation. -/
def applyOp (sv : ServerState) : Op → ServerState
  | Op.start p => sv.start p
  | Op.stop p => sv.stop p
  | Op.add id i => sv.addInteraction id i
  | Op.removeOne p id => sv.removeInteraction p id
  | Op.removeFor p => sv.removeInteractions p
  | Op.removeAll => sv.removeAllInteractions
  | Op.handle p req => (sv.handle p req).1

/-- Run a sequence of server operations from the initial empty server. -/
def run (ops : List Op) : ServerState :=
  ops.foldl applyOp { mockMap := [] }

/-- A concrete interaction bound to port 3000, used by witnesses. -/
def demoInteraction : Interaction :=
  { port := 3000, withRequest := { method := "GET", path := "/a" },
    willRespondWith := { status := 200, body := "ok" } }

/-- A concrete request satisfying demoInteraction, used by witnesses. -/
def demoRequest : Request := { method := "GET", path := "/a" }

/-- A running port 3000 holding the unexercised demoInteraction. -/
def demoServerFresh : ServerState :=
  { mockMap := [(3000, { running := true, interactions := [("id1", demoInteraction)] })] }

/-- A running port 3000 holding demoInteraction already exercised. -/
def demoServerUsed : ServerState :=
  { mockMap :=
      [(3000,
        { running := true,
          interactions := [("id1", { demoInteraction with exercised := true })] })] }

/-! Association-list lemmas shared by the claims. -/

theorem mapGet_mapSet {K V : Type} [DecidableEq K] (m : List (K × V)) (k q : K) (v : V) :
    mapGet (mapSet m k v) q = if k = q then some v else mapGet m q := by
  induction m with
  | nil => by_cases h : k = q <;> simp [mapSet, mapGet, h]
  | cons hd tl ih =>
      obtain ⟨k0, v0⟩ := hd
      by_cases h0 : k0 = k
      · subst h0
        by_cases h : k0 = q <;> simp [mapSet, mapGet, h]
      · by_cases h : k0 = q
        · subst h
          have hkq : ¬ k = k0 := fun hc => h0 hc.symm
          simp [mapSet, mapGet, h0, hkq]
        · simp [mapSet, mapGet, h0, h, ih]

theorem mem_mapSet {K V : Type} [DecidableEq K] (m : List (K × V)) (k : K) (v : V)
    (x : K × V) (hx : x ∈ mapSet m k v) : x = (k, v) ∨ x ∈ m := by
  induction m with
  | nil => simpa [mapSet] using hx
  | cons hd tl ih =>
      by_cases h0 : hd.1 = k
      · rcases hd with ⟨k0, v0⟩
        simp only [mapSet] at hx
        rw [if_pos h0] at hx
        rcases List.mem_cons.mp hx with h | h
        · exact Or.inl h
        · exact Or.inr (List.mem_cons_of_mem _ h)
      · rcases hd with ⟨k0, v0⟩
        simp only [mapSet] at hx
        rw [if_neg h0] at hx
        rcases List.mem_cons.mp hx with h | h
        · exact Or.inr (h ▸ List.mem_cons_self _ _)
        · rcases ih h with h' | h'
          · exact Or.inl h'
          · exact Or.inr (List.mem_cons_of_mem _ h')

theorem keys_mapSet {K V : Type} [DecidableEq K] (m : List (K × V)) (k : K) (v : V) :
    (mapSet m k v).map Prod.fst =
      if k ∈ m.map Prod.fst then m.map Prod.fst else m.map Prod.fst ++ [k] := by
  induction m with
  | nil => simp [mapSet]
  | cons hd tl ih =>
      obtain ⟨k0, v0⟩ := hd
      by_cases h0 : k0 = k
      · subst h0
        simp [mapSet]
      · have hne : ¬ k = k0 := fun hc => h0 hc.symm
        by_cases hk : k ∈ tl.map Prod.fst <;>
          simp [mapSet, h0, hne, hk, ih]

theorem nodup_keys_mapSet {K V : Type} [DecidableEq K] (m : List (K × V)) (k : K) (v : V)
    (h : (m.map Prod.fst).Nodup) : ((mapSet m k v).map Prod.fst).Nodup := by
  rw [keys_mapSet]
  by_cases hk : k ∈ m.map Prod.fst
  · rw [if_pos hk]
    exact h
  · rw [if_neg hk]
    refine List.Nodup.append h (List.nodup_singleton k) ?_
    intro a ha hb
    rw [List.mem_singleton] at hb
    subst hb
    exact hk ha

theorem keys_mapDelete_sublist {K V : Type} [DecidableEq K] (m : List (K × V)) (k : K) :
    List.Sublist ((mapDelete m k).map Prod.fst) (m.map Prod.fst) := by
  induction m with
  | nil => simp [mapDelete]
  | cons hd tl ih =>
      obtain ⟨k0, v0⟩ := hd
      by_cases h0 : k0 = k
      · rw [show mapDelete ((k0, v0) :: tl) k = tl by simp [mapDelete, h0]]
        exact List.sublist_cons_self k0 (tl.map Prod.fst)
      · simpa [mapDelete, h0] using List.Sublist.cons₂ k0 ih

theorem nodup_keys_mapDelete {K V : Type} [DecidableEq K] (m : List (K × V)) (k : K)
    (h : (m.map Prod.fst).Nodup) : ((mapDelete m k).map Prod.fst).Nodup :=
  (keys_mapDelete_sublist m k).nodup h

theorem mapGet_mapDelete_ne {K V : Type} [DecidableEq K] (m : List (K × V)) (k q : K)
    (h : k ≠ q) : mapGet (mapDelete m k) q = mapGet m q := by
  induction m with
  | nil => simp [mapDelete]
  | cons hd tl ih =>
      obtain ⟨k0, v0⟩ := hd
      by_cases h0 : k0 = k
      · subst h0
        have h1 : ¬ k0 = q := h
        simp [mapDelete, mapGet, h1]
      · simp only [mapDelete, if_neg h0, mapGet]
        by_cases hq : k0 = q
        · simp [hq]
        · simp [hq, ih]

theorem mapGet_eq_none_of_not_mem {K V : Type} [DecidableEq K] (m : List (K × V)) (k : K)
    (h : k ∉ m.map Prod.fst) : mapGet m k = none := by
  induction m with
  | nil => simp [mapGet]
  | cons hd tl ih =>
      obtain ⟨k0, v0⟩ := hd
      simp only [List.map_cons, List.mem_cons] at h
      push_neg at h
      have h1 : ¬ k0 = k := fun hc => h.1 hc.symm
      simp [mapGet, h1, ih h.2]

theorem mapGet_mapDelete_self {K V : Type} [DecidableEq K] (m : List (K × V)) (k : K)
    (h : (m.map Prod.fst).Nodup) : mapGet (mapDelete m k) k = none := by
  induction m with
  | nil => simp [mapDelete, mapGet]
  | cons hd tl ih =>
      obtain ⟨k0, v0⟩ := hd
      simp only [List.map_cons, List.nodup_cons] at h
      by_cases h0 : k0 = k
      · subst h0
        simp only [mapDelete, if_pos rfl]
        exact mapGet_eq_none_of_not_mem tl k0 h.1
      · simp only [mapDelete, if_neg h0, mapGet, if_neg h0]
        exact ih h.2

theorem mapGet_none_mapDelete {K V : Type} [DecidableEq K] (m : List (K × V)) (k q : K)
    (h : mapGet m q = none) : mapGet (mapDelete m k) q = none := by
  induction m with
  | nil => simp [mapDelete, mapGet]
  | cons hd tl ih =>
      obtain ⟨k0, v0⟩ := hd
      simp only [mapGet] at h
      by_cases hq : k0 = q
      · simp [hq] at h
      · rw [if_neg hq] at h
        by_cases h0 : k0 = k
        · simpa [mapDelete, h0] using h
        · simp [mapDelete, h0, mapGet, hq, ih h]

theorem mapGet_mapVal {K V W : Type} [DecidableEq K] (m : List (K × V)) (g : V → W)
    (q : K) : mapGet (m.map fun p => (p.1, g p.2)) q = (mapGet m q).map g := by
  induction m with
  | nil => simp [mapGet]
  | cons hd tl ih =>
      obtain ⟨k0, v0⟩ := hd
      by_cases hq : k0 = q <;> simp [mapGet, hq, ih]

theorem keys_mapVal {K V W : Type} (m : List (K × V)) (g : V → W) :
    ((m.map fun p => (p.1, g p.2)).map Prod.fst) = m.map Prod.fst := by
  simp [List.map_map]

theorem mapGet_eq_some_mem {K V : Type} [DecidableEq K] (m : List (K × V)) (k : K) (v : V)
    (h : mapGet m k = some v) : (k, v) ∈ m := by
  induction m with
  | nil => simp [mapGet] at h
  | cons hd tl ih =>
      obtain ⟨k0, v0⟩ := hd
      by_cases h0 : k0 = k
      · subst h0
        simp only [mapGet, if_true] at h
        injection h with h
        subst h
        exact List.mem_cons_self _ _
      · simp only [mapGet, if_neg h0] at h
        exact List.mem_cons_of_mem _ (ih h)

theorem find?_append_singleton {α : Type} (l : List α) (a : α) (p : α → Bool) :
    (l ++ [a]).find? p =
      match l.find? p with
      | some b => some b
      | none => if p a then some a else none := by
  induction l with
  | nil => by_cases h : p a <;> simp [List.find?, h]
  | cons hd tl ih =>
      by_cases h : p hd
      · simp [List.find?_cons_of_pos _ h]
      · simp [List.find?_cons_of_neg _ h, ih]

/-! Characterization of the dispatch loop. -/

theorem scanRegistry_fst (req : Request) (reg : List (String × Interaction)) (ex : Bool)
    (resp : Option HttpResponse) :
    (scanRegistry req reg ex resp).1 =
      reg.map fun p =>
        (p.1, if matchesReq p.2 req then { p.2 with exercised := true } else p.2) := by
  induction reg generalizing ex resp with
  | nil => simp [scanRegistry]
  | cons hd tl ih =>
      obtain ⟨id, i⟩ := hd
      by_cases h : matchesReq i req <;> simp [scanRegistry, h, ih]

theorem scanRegistry_flag (req : Request) (reg : List (String × Interaction)) (ex : Bool)
    (resp : Option HttpResponse) :
    (scanRegistry req reg ex resp).2.1 = (ex || reg.any fun p => matchesReq p.2 req) := by
  induction reg generalizing ex resp with
  | nil => simp [scanRegistry]
  | cons hd tl ih =>
      obtain ⟨id, i⟩ := hd
      by_cases h : matchesReq i req <;> simp [scanRegistry, h, ih]

theorem scanRegistry_resp (req : Request) (reg : List (String × Interaction)) (ex : Bool)
    (resp : Option HttpResponse) :
    (scanRegistry req reg ex resp).2.2 =
      match reg.reverse.find? (fun p => matchesReq p.2 req) with
      | some p => some (respondWith p.2)
      | none => resp := by
  induction reg generalizing ex resp with
  | nil => simp [scanRegistry]
  | cons hd tl ih =>
      obtain ⟨id, i⟩ := hd
      by_cases h : matchesReq i req
      · simp only [scanRegistry, if_pos h, List.reverse_cons, find?_append_singleton, ih]
        cases hfind : tl.reverse.find? (fun p => matchesReq p.2 req) <;> simp [h]
      · simp only [scanRegistry, if_neg h, List.reverse_cons, find?_append_singleton, ih]
        cases hfind : tl.reverse.find? (fun p => matchesReq p.2 req) <;> simp [h]


/-! goodKeys: distinct interaction ids in every port registry, preserved by
every server operation. -/

theorem lookupInteraction_eq (sv : ServerState) (port : Nat) (id : String) :
    lookupInteraction sv port id =
      match mapGet sv.mockMap port with
      | some m => mapGet m.interactions id
      | none => none := by
  cases hm : mapGet sv.mockMap port <;> simp [lookupInteraction, registryOf, hm]

theorem goodKeys_lookup (sv : ServerState) (port : Nat) (m : MockState)
    (hgk : goodKeys sv = true) (hm : mapGet sv.mockMap port = some m) :
    (m.interactions.map Prod.fst).Nodup := by
  have hmem := mapGet_eq_some_mem sv.mockMap port m hm
  exact of_decide_eq_true (List.all_eq_true.mp hgk _ hmem)

theorem goodKeys_insert (sv : ServerState) (port : Nat) (m : MockState)
    (hgk : goodKeys sv = true) (hnd : (m.interactions.map Prod.fst).Nodup) :
    goodKeys { mockMap := mapSet sv.mockMap port m } = true := by
  apply List.all_eq_true.mpr
  intro x hx
  rcases mem_mapSet sv.mockMap port m x hx with h | h
  · subst h
    exact decide_eq_true hnd
  · exact List.all_eq_true.mp hgk x h

theorem goodKeys_start (sv : ServerState) (port : Nat) (hgk : goodKeys sv = true) :
    goodKeys (sv.start port) = true := by
  cases hm : mapGet sv.mockMap port with
  | none =>
      simp only [ServerState.start, hm]
      exact goodKeys_insert sv port _ hgk (by simp)
  | some m =>
      cases hr : m.running
      · simp only [ServerState.start, hm, hr, Bool.false_eq_true, if_false]
        exact goodKeys_insert sv port _ hgk (by simp)
      · simpa [ServerState.start, hm, hr] using hgk

theorem goodKeys_stop (sv : ServerState) (port : Nat) (hgk : goodKeys sv = true) :
    goodKeys (sv.stop port) = true := by
  cases hm : mapGet sv.mockMap port with
  | none => simpa [ServerState.stop, hm] using hgk
  | some m =>
      cases hr : m.running
      · simpa [ServerState.stop, hm, hr] using hgk
      · simp only [ServerState.stop, hm, hr, if_true]
        exact goodKeys_insert sv port _ hgk (goodKeys_lookup sv port m hgk hm)

theorem goodKeys_addInteraction (sv : ServerState) (id : String) (i : Interaction)
    (hgk : goodKeys sv = true) : goodKeys (sv.addInteraction id i) = true := by
  cases hm : mapGet sv.mockMap i.port with
  | none => simpa [ServerState.addInteraction, hm] using hgk
  | some m =>
      simp only [ServerState.addInteraction, hm]
      exact goodKeys_insert sv i.port _ hgk
        (nodup_keys_mapSet m.interactions id i (goodKeys_lookup sv i.port m hgk hm))

theorem goodKeys_removeInteraction (sv : ServerState) (port : Nat) (id : String)
    (hgk : goodKeys sv = true) : goodKeys (sv.removeInteraction port id) = true := by
  cases hm : mapGet sv.mockMap port with
  | none => simpa [ServerState.removeInteraction, hm] using hgk
  | some m =>
      simp only [ServerState.removeInteraction, hm]
      exact goodKeys_insert sv port _ hgk
        (nodup_keys_mapDelete m.interactions id (goodKeys_lookup sv port m hgk hm))

theorem goodKeys_removeInteractions (sv : ServerState) (port : Nat)
    (hgk : goodKeys sv = true) : goodKeys (sv.removeInteractions port) = true := by
  cases hm : mapGet sv.mockMap port with
  | none => simpa [ServerState.removeInteractions, hm] using hgk
  | some m =>
      simp only [ServerState.removeInteractions, hm]
      exact goodKeys_insert sv port _ hgk (by simp)

theorem goodKeys_removeAllInteractions (sv : ServerState) (_hgk : goodKeys sv = true) :
    goodKeys sv.removeAllInteractions = true := by
  apply List.all_eq_true.mpr
  intro x hx
  simp only [ServerState.removeAllInteractions] at hx
  obtain ⟨p, hp, hpx⟩ := List.mem_map.mp hx
  subst hpx
  simp

theorem handleRequest_fst (reg : List (String × Interaction)) (req : Request) :
    (handleRequest reg req).1 = (scanRegistry req reg false none).1 := by
  unfold handleRequest
  by_cases h : (scanRegistry req reg false none).2.1 <;> simp [h]

theorem handleRequest_keys (reg : List (String × Interaction)) (req : Request) :
    ((handleRequest reg req).1.map Prod.fst) = reg.map Prod.fst := by
  rw [handleRequest_fst, scanRegistry_fst]
  simp [List.map_map]

theorem goodKeys_handle (sv : ServerState) (port : Nat) (req : Request)
    (hgk : goodKeys sv = true) : goodKeys (sv.handle port req).1 = true := by
  cases hm : mapGet sv.mockMap port with
  | none => simpa [ServerState.handle, hm] using hgk
  | some m =>
      simp only [ServerState.handle, hm]
      apply goodKeys_insert sv port _ hgk
      show (((handleRequest m.interactions req).1).map Prod.fst).Nodup
      rw [handleRequest_keys]
      exact goodKeys_lookup sv port m hgk hm

theorem goodKeys_applyOp (sv : ServerState) (op : Op) (hgk : goodKeys sv = true) :
    goodKeys (applyOp sv op) = true := by
  cases op with
  | start p => exact goodKeys_start sv p hgk
  | stop p => exact goodKeys_stop sv p hgk
  | add id i => exact goodKeys_addInteraction sv id i hgk
  | removeOne p id => exact goodKeys_removeInteraction sv p id hgk
  | removeFor p => exact goodKeys_removeInteractions sv p hgk
  | removeAll => exact goodKeys_removeAllInteractions sv hgk
  | handle p req => exact goodKeys_handle sv p req hgk

theorem goodKeys_foldl (ops : List Op) :
    ∀ sv, goodKeys sv = true → goodKeys (ops.foldl applyOp sv) = true := by
  induction ops with
  | nil =>
      intro sv h
      exact h
  | cons op rest ih =>
      intro sv h
      simp only [List.foldl_cons]
      exact ih _ (goodKeys_applyOp sv op h)

theorem goodKeys_registerAll (ixs : List (String × Interaction)) :
    ∀ sv, goodKeys sv = true → goodKeys (registerAll sv ixs) = true := by
  induction ixs with
  | nil =>
      intro sv h
      exact h
  | cons q rest ih =>
      intro sv h
      simp only [registerAll, List.foldl_cons]
      exact ih _ (goodKeys_addInteraction sv q.1 q.2 h)

theorem goodKeys_serveAll (inbound : List (Nat × Request)) :
    ∀ sv, goodKeys sv = true → goodKeys (serveAll sv inbound) = true := by
  induction inbound with
  | nil =>
      intro sv h
      exact h
  | cons q rest ih =>
      intro sv h
      simp only [serveAll, List.foldl_cons]
      exact ih _ (goodKeys_handle sv q.1 q.2 h)

theorem lookupInteraction_removeInteraction_none (sv : ServerState) (rport : Nat)
    (rid : String) (port : Nat) (id : String)
    (h : lookupInteraction sv port id = none) :
    lookupInteraction (sv.removeInteraction rport rid) port id = none := by
  cases hm : mapGet sv.mockMap rport with
  | none => simpa [ServerState.removeInteraction, hm] using h
  | some m =>
      simp only [ServerState.removeInteraction, hm]
      rw [lookupInteraction_eq] at h ⊢
      simp only [mapGet_mapSet]
      by_cases hq : rport = port
      · subst hq
        rw [if_pos rfl]
        rw [hm] at h
        exact mapGet_none_mapDelete m.interactions rid id h
      · rw [if_neg hq]
        exact h

theorem lookupInteraction_removeInteraction_self (sv : ServerState) (port : Nat)
    (id : String) (hgk : goodKeys sv = true) :
    lookupInteraction (sv.removeInteraction port id) port id = none := by
  cases hm : mapGet sv.mockMap port with
  | none =>
      rw [show sv.removeInteraction port id = sv by simp [ServerState.removeInteraction, hm]]
      rw [lookupInteraction_eq, hm]
  | some m =>
      simp only [ServerState.removeInteraction, hm]
      rw [lookupInteraction_eq]
      simp only [mapGet_mapSet, if_pos rfl]
      exact mapGet_mapDelete_self m.interactions id (goodKeys_lookup sv port m hgk hm)

theorem deregisterAll_preserves_none (l : List (String × Interaction)) :
    ∀ sv port id, lookupInteraction sv port id = none →
      lookupInteraction (deregisterAll sv l) port id = none := by
  induction l with
  | nil =>
      intro sv port id h
      exact h
  | cons q rest ih =>
      intro sv port id h
      simp only [deregisterAll, List.foldl_cons]
      exact ih _ _ _ (lookupInteraction_removeInteraction_none sv q.2.port q.1 port id h)

theorem deregisterAll_removes (l : List (String × Interaction)) :
    ∀ sv, goodKeys sv = true → ∀ p ∈ l,
      lookupInteraction (deregisterAll sv l) p.2.port p.1 = none := by
  induction l with
  | nil =>
      intro sv _ p hp
      cases hp
  | cons q rest ih =>
      intro sv hgk p hp
      simp only [deregisterAll, List.foldl_cons]
      rcases List.mem_cons.mp hp with h | h
      · subst h
        exact deregisterAll_preserves_none rest _ _ _
          (lookupInteraction_removeInteraction_self sv p.2.port p.1 hgk)
      · exact ih _ (goodKeys_removeInteraction sv q.2.port q.1 hgk) p h

/-- How one server operation can change what an id of a port registry maps
to: it disappears, it is untouched, it is replaced by an add under the same
id, or it is rewritten by the dispatch handler of a request on that port. -/
theorem mapGet_clearAll (mm : List (Nat × MockState)) (q : Nat) :
    mapGet (mm.map fun p => (p.1, { p.2 with interactions := [] })) q =
      (mapGet mm q).map fun m => { m with interactions := [] } := by
  induction mm with
  | nil => simp [mapGet]
  | cons hd tl ih =>
      obtain ⟨k0, v0⟩ := hd
      by_cases hq : k0 = q <;> simp [mapGet, hq, ih]

theorem mapGet_scanned (req : Request) (reg : List (String × Interaction)) (id : String) :
    mapGet (reg.map fun p =>
        (p.1, if matchesReq p.2 req then { p.2 with exercised := true } else p.2)) id =
      (mapGet reg id).map
        fun i => if matchesReq i req then { i with exercised := true } else i := by
  induction reg with
  | nil => simp [mapGet]
  | cons hd tl ih =>
      obtain ⟨k0, v0⟩ := hd
      by_cases hq : k0 = id <;> simp [mapGet, hq, ih]

/-- How one server operation can change what an id of a port registry maps
to: it disappears, it is untouched, it is replaced by an add under the same
id, or it is rewritten by the dispatch handler of a request on that port. -/
theorem lookupInteraction_applyOp (sv : ServerState) (op : Op) (port : Nat) (id : String)
    (hgk : goodKeys sv = true) :
    lookupInteraction (applyOp sv op) port id = none ∨
    lookupInteraction (applyOp sv op) port id = lookupInteraction sv port id ∨
    (∃ j, op = Op.add id j ∧ lookupInteraction (applyOp sv op) port id = some j) ∨
    (∃ req i, op = Op.handle port req ∧ lookupInteraction sv port id = some i ∧
      lookupInteraction (applyOp sv op) port id =
        some (if matchesReq i req then { i with exercised := true } else i)) := by
  cases op with
  | start p =>
      rw [show applyOp sv (Op.start p) = sv.start p from rfl]
      cases hm : mapGet sv.mockMap p with
      | some m =>
          cases hr : m.running
          · have hs : sv.start p =
                { mockMap := mapSet sv.mockMap p { running := true, interactions := [] } } := by
              simp [ServerState.start, hm, hr]
            by_cases hp : p = port
            · subst hp
              left
              simp [hs, lookupInteraction_eq, mapGet_mapSet, mapGet]
            · right
              left
              simp [hs, lookupInteraction_eq, mapGet_mapSet, hp]
          · have hs : sv.start p = sv := by
              simp [ServerState.start, hm, hr]
            right
            left
            rw [hs]
      | none =>
          have hs : sv.start p =
              { mockMap := mapSet sv.mockMap p { running := true, interactions := [] } } := by
            simp [ServerState.start, hm]
          by_cases hp : p = port
          · subst hp
            left
            simp [hs, lookupInteraction_eq, mapGet_mapSet, mapGet]
          · right
            left
            simp [hs, lookupInteraction_eq, mapGet_mapSet, hp]
  | stop p =>
      rw [show applyOp sv (Op.stop p) = sv.stop p from rfl]
      right
      left
      cases hm : mapGet sv.mockMap p with
      | none =>
          rw [show sv.stop p = sv by simp [ServerState.stop, hm]]
      | some m =>
          cases hr : m.running
          · rw [show sv.stop p = sv by simp [ServerState.stop, hm, hr]]
          · have hs : sv.stop p =
                { mockMap := mapSet sv.mockMap p { m with running := false } } := by
              simp [ServerState.stop, hm, hr]
            by_cases hp : p = port
            · subst hp
              simp [hs, lookupInteraction_eq, mapGet_mapSet, hm]
            · simp [hs, lookupInteraction_eq, mapGet_mapSet, hp]
  | add aid j =>
      rw [show applyOp sv (Op.add aid j) = sv.addInteraction aid j from rfl]
      cases hm : mapGet sv.mockMap j.port with
      | none =>
          right
          left
          rw [show sv.addInteraction aid j = sv by simp [ServerState.addInteraction, hm]]
      | some m =>
          have hs : sv.addInteraction aid j =
              { mockMap := mapSet sv.mockMap j.port
                  { m with interactions := mapSet m.interactions aid j } } := by
            simp [ServerState.addInteraction, hm]
          by_cases hp : j.port = port
          · subst hp
            by_cases hid : aid = id
            · subst hid
              right
              right
              left
              refine ⟨j, rfl, ?_⟩
              simp [hs, lookupInteraction_eq, mapGet_mapSet]
            · right
              left
              simp [hs, lookupInteraction_eq, mapGet_mapSet, hm, hid]
          · right
            left
            simp [hs, lookupInteraction_eq, mapGet_mapSet, hp]
  | removeOne p rid =>
      rw [show applyOp sv (Op.removeOne p rid) = sv.removeInteraction p rid from rfl]
      cases hm : mapGet sv.mockMap p with
      | none =>
          right
          left
          rw [show sv.removeInteraction p rid = sv by simp [ServerState.removeInteraction, hm]]
      | some m =>
          have hs : sv.removeInteraction p rid =
              { mockMap := mapSet sv.mockMap p
                  { m with interactions := mapDelete m.interactions rid } } := by
            simp [ServerState.removeInteraction, hm]
          by_cases hp : p = port
          · subst hp
            by_cases hid : rid = id
            · subst hid
              left
              exact lookupInteraction_removeInteraction_self sv p rid hgk
            · right
              left
              simp only [hs, lookupInteraction_eq, mapGet_mapSet, if_pos rfl, hm]
              exact mapGet_mapDelete_ne m.interactions rid id hid
          · right
            left
            simp [hs, lookupInteraction_eq, mapGet_mapSet, hp]
  | removeFor p =>
      rw [show applyOp sv (Op.removeFor p) = sv.removeInteractions p from rfl]
      cases hm : mapGet sv.mockMap p with
      | none =>
          right
          left
          rw [show sv.removeInteractions p = sv by simp [ServerState.removeInteractions, hm]]
      | some m =>
          have hs : sv.removeInteractions p =
              { mockMap := mapSet sv.mockMap p { m with interactions := [] } } := by
            simp [ServerState.removeInteractions, hm]
          by_cases hp : p = port
          · subst hp
            left
            simp [hs, lookupInteraction_eq, mapGet_mapSet, mapGet]
          · right
            left
            simp [hs, lookupInteraction_eq, mapGet_mapSet, hp]
  | removeAll =>
      rw [show applyOp sv Op.removeAll = sv.removeAllInteractions from rfl]
      cases hm : mapGet sv.mockMap port with
      | none =>
          right
          left
          simp [ServerState.removeAllInteractions, lookupInteraction_eq, mapGet_clearAll, hm]
      | some m =>
          left
          simp [ServerState.removeAllInteractions, lookupInteraction_eq, mapGet_clearAll, hm,
            mapGet]
  | handle p req =>
      rw [show applyOp sv (Op.handle p req) = (sv.handle p req).1 from rfl]
      cases hm : mapGet sv.mockMap p with
      | none =>
          right
          left
          rw [show (sv.handle p req).1 = sv by simp [ServerState.handle, hm]]
      | some m =>
          have hs : (sv.handle p req).1 =
              { mockMap := mapSet sv.mockMap p
                  { m with interactions := (handleRequest m.interactions req).1 } } := by
            simp [ServerState.handle, hm]
          by_cases hp : p = port
          · subst hp
            cases hi : mapGet m.interactions id with
            | none =>
                left
                simp [hs, lookupInteraction_eq, mapGet_mapSet, handleRequest_fst,
                  scanRegistry_fst, mapGet_scanned, hi]
            | some i =>
                right
                right
                right
                refine ⟨req, i, rfl, ?_, ?_⟩
                · rw [lookupInteraction_eq, hm]
                  exact hi
                · simp [hs, lookupInteraction_eq, mapGet_mapSet, handleRequest_fst,
                    scanRegistry_fst, mapGet_scanned, hi]
          · right
            left
            simp [hs, lookupInteraction_eq, mapGet_mapSet, hp]


/-- C1: on each inbound request the dispatch loop does not stop at the first
match: every interaction whose predicate holds is marked exercised (and every
other entry is left untouched, ids and order preserved), while the response
the client observes is the one configured by the last matching interaction in
iteration order (the last entry of the reversed registry whose predicate
holds). -/
theorem matching_marks_all_and_last_match_wins
    (reg : List (String × Interaction)) (req : Request) (plast : String × Interaction)
    (hlast : reg.reverse.find? (fun p => matchesReq p.2 req) = some plast) :
    (handleRequest reg req).2 = respondWith plast.2 ∧
    (handleRequest reg req).1 =
      (reg.map fun p =>
        (p.1, if matchesReq p.2 req then { p.2 with exercised := true } else p.2)) ∧
    (∀ p ∈ reg, matchesReq p.2 req = true →
      (p.1, { p.2 with exercised := true }) ∈ (handleRequest reg req).1) := by
  have hmem : plast ∈ reg := List.mem_reverse.mp (List.mem_of_find?_eq_some hlast)
  have hpl : matchesReq plast.2 req = true := by
    simpa using List.find?_some hlast
  have hany : (reg.any fun p => matchesReq p.2 req) = true :=
    List.any_eq_true.mpr ⟨plast, hmem, hpl⟩
  have hflag : (scanRegistry req reg false none).2.1 = true := by
    rw [scanRegistry_flag]
    simp [hany]
  have hresp : (scanRegistry req reg false none).2.2 = some (respondWith plast.2) := by
    rw [scanRegistry_resp, hlast]
  refine ⟨?_, ?_, ?_⟩
  · simp [handleRequest, hflag, hresp]
  · simp [handleRequest, hflag, scanRegistry_fst]
  · intro p hp hmp
    simp only [handleRequest, hflag, if_true, scanRegistry_fst]
    exact List.mem_map.mpr ⟨p, hp, by simp [hmp]⟩

/-- C1 witness: two registered interactions both match a GET request on
path /w; both come back marked exercised and the observed response is the
second (later-registered) one. -/
theorem matching_marks_all_and_last_match_wins_witness :
    (handleRequest
      [("a", { port := 1, withRequest := { method := "GET", path := "/w" },
               willRespondWith := { status := 200, body := "first" } }),
       ("b", { port := 1, withRequest := { method := "GET", path := "/w" },
               willRespondWith := { status := 201, body := "second" } })]
      { method := "GET", path := "/w" }).2 =
      respondWith { port := 1, withRequest := { method := "GET", path := "/w" },
                    willRespondWith := { status := 201, body := "second" } } :=
  (matching_marks_all_and_last_match_wins _ _
    ("b", { port := 1, withRequest := { method := "GET", path := "/w" },
            willRespondWith := { status := 201, body := "second" } })
    (by decide)).1

/-- C2: an interaction matches an inbound request exactly when the method
strings are equal, the paths are equal, and each of the optional query,
header and body constraints is either undeclared or satisfied, where query
and header constraints only require the declared keys to be present with
equal values (extra request keys are ignored) and a declared body must equal
the request body. -/
theorem interaction_match_iff (i : Interaction) (req : Request) :
    matchesReq i req = true ↔
      (i.withRequest.method = req.method ∧
       i.withRequest.path = req.path ∧
       (∀ q ∈ i.withRequest.query, ∀ kv ∈ q, mapGet req.query kv.1 = some kv.2) ∧
       (∀ hs ∈ i.withRequest.headers, ∀ kv ∈ hs, mapGet req.headers kv.1 = some kv.2) ∧
       (∀ b ∈ i.withRequest.body, req.body = b)) := by
  unfold matchesReq validateQuery validateHeaders validateBody
  cases hq : i.withRequest.query <;> cases hh : i.withRequest.headers <;>
    cases hb : i.withRequest.body <;>
      simp [List.all_eq_true, and_assoc]

/-- C2 witness: a request with an extra query key and extra headers still
matches an interaction that declares a subset of them. -/
theorem interaction_match_iff_witness :
    matchesReq
      { port := 1,
        withRequest := { method := "GET", path := "/p",
                         query := some [("a", "1")],
                         headers := some [("k", "v")] },
        willRespondWith := { status := 200 } }
      { method := "GET", path := "/p",
        query := [("a", "1"), ("extra", "2")],
        headers := [("k", "v"), ("other", "w")] } = true :=
  (interaction_match_iff _ _).mpr (by decide)

/-- C3: the exercised flag of the dispatch loop stays false exactly when no
registered interaction matches the request, and in that case the handler
responds 404 with the literal body Interaction Not Found. -/
theorem not_found_iff_no_match (reg : List (String × Interaction)) (req : Request) :
    ((scanRegistry req reg false none).2.1 = false ↔
      ∀ p ∈ reg, matchesReq p.2 req = false) ∧
    ((∀ p ∈ reg, matchesReq p.2 req = false) →
      (handleRequest reg req).2 = notFoundResponse) := by
  have hflag : (scanRegistry req reg false none).2.1 =
      (reg.any fun p => matchesReq p.2 req) := by
    rw [scanRegistry_flag]
    simp
  constructor
  · rw [hflag]
    constructor
    · intro h p hp
      by_contra hc
      have hm : matchesReq p.2 req = true := by
        cases hmp : matchesReq p.2 req
        · exact absurd hmp hc
        · rfl
      have : (reg.any fun p => matchesReq p.2 req) = true :=
        List.any_eq_true.mpr ⟨p, hp, hm⟩
      rw [this] at h
      cases h
    · intro h
      cases hany : (reg.any fun p => matchesReq p.2 req)
      · rfl
      · obtain ⟨p, hp, hm⟩ := List.any_eq_true.mp hany
        rw [h p hp] at hm
        cases hm
  · intro h
    have hfalse : (scanRegistry req reg false none).2.1 = false := by
      rw [hflag]
      cases hany : (reg.any fun p => matchesReq p.2 req)
      · rfl
      · obtain ⟨p, hp, hm⟩ := List.any_eq_true.mp hany
        rw [h p hp] at hm
        cases hm
    simp [handleRequest, hfalse]

/-- C3 witness: a registry whose single interaction does not match the
request yields the literal 404 response. -/
theorem not_found_iff_no_match_witness :
    (handleRequest
      [("a", { port := 1, withRequest := { method := "GET", path := "/w" },
               willRespondWith := { status := 200 } })]
      { method := "POST", path := "/other" }).2 = notFoundResponse :=
  (not_found_iff_no_match
    [("a", { port := 1, withRequest := { method := "GET", path := "/w" },
             willRespondWith := { status := 200 } })]
    { method := "POST", path := "/other" }).2 (by decide)

/-- C5 counterexample: start a port, register an interaction, stop the port,
start it again: the registry is now empty, although the claim says a
stop/start cycle preserves the registry contents.  (stop itself does preserve
them; it is the restart that installs a fresh empty registry.) -/
theorem start_resets_registry_cex :
    registryOf
      ((((ServerState.start { mockMap := [] } 3000).addInteraction "id1"
          demoInteraction).stop 3000).start 3000) 3000 = some [] ∧
    registryOf
      ((ServerState.start { mockMap := [] } 3000).addInteraction "id1" demoInteraction)
      3000 = some [("id1", demoInteraction)] := by
  exact ⟨rfl, rfl⟩

/-- C5 corrected: stop only flips the running flag and preserves the registry,
and start on a currently running port is a no-op; but start on a stopped or
unknown port installs a fresh empty registry, discarding previous contents. -/
theorem stop_start_registry (sv : ServerState) (port : Nat) :
    registryOf (sv.stop port) port = registryOf sv port ∧
    runningOf (sv.stop port) port = (runningOf sv port).map (fun _ => false) ∧
    (runningOf sv port = some true → sv.start port = sv) ∧
    (runningOf sv port = some false → registryOf (sv.start port) port = some []) ∧
    (runningOf sv port = none → registryOf (sv.start port) port = some []) := by
  cases hm : mapGet sv.mockMap port with
  | none =>
      refine ⟨?_, ?_, ?_, ?_, ?_⟩
      · simp [ServerState.stop, hm]
      · simp [ServerState.stop, runningOf, hm]
      · intro h
        simp [runningOf, hm] at h
      · intro h
        simp [runningOf, hm] at h
      · intro _
        simp [ServerState.start, hm, registryOf, mapGet_mapSet]
  | some m =>
      cases hr : m.running
      · refine ⟨?_, ?_, ?_, ?_, ?_⟩
        · simp [ServerState.stop, hm, hr]
        · simp [ServerState.stop, runningOf, hm, hr]
        · intro h
          simp [runningOf, hm, hr] at h
        · intro _
          simp [ServerState.start, hm, hr, registryOf, mapGet_mapSet]
        · intro h
          simp [runningOf, hm] at h
      · refine ⟨?_, ?_, ?_, ?_, ?_⟩
        · simp [ServerState.stop, hm, hr, registryOf, mapGet_mapSet]
        · simp [ServerState.stop, hm, hr, runningOf, mapGet_mapSet]
        · intro _
          simp [ServerState.start, hm, hr]
        · intro h
          simp [runningOf, hm, hr] at h
        · intro h
          simp [runningOf, hm] at h

/-- C5 corrected witness: on a freshly started port with one registered
interaction, stop preserves the registry and a restart resets it. -/
theorem stop_start_registry_witness :
    registryOf
      (((ServerState.start { mockMap := [] } 3000).addInteraction "id1"
        demoInteraction).stop 3000) 3000 = some [("id1", demoInteraction)] ∧
    registryOf
      ((((ServerState.start { mockMap := [] } 3000).addInteraction "id1"
        demoInteraction).stop 3000).start 3000) 3000 = some [] := by
  constructor
  · rw [(stop_start_registry
      ((ServerState.start { mockMap := [] } 3000).addInteraction "id1" demoInteraction)
      3000).1]
    rfl
  · exact (stop_start_registry
      (((ServerState.start { mockMap := [] } 3000).addInteraction "id1"
        demoInteraction).stop 3000) 3000).2.2.2.1 (by rfl)

/-- C6 counterexample: the fetch switch routes DELETE, PUT, PATCH, HEAD and
OPTIONS through its default branch, which calls rp.get, exactly as it routes
GET; the only verb functions the switch can call at all are rp.get and
rp.post, so none of those five methods is dispatched with its own verb
semantics. -/
theorem fetch_verbs_collapse_cex :
    fetchVerb (Spec.delete {} "u").method = RpVerb.get ∧
    fetchVerb (Spec.put {} "u").method = RpVerb.get ∧
    fetchVerb (Spec.patch {} "u").method = RpVerb.get ∧
    fetchVerb (Spec.head {} "u").method = RpVerb.get ∧
    fetchVerb (Spec.options {} "u").method = RpVerb.get ∧
    fetchVerb (Spec.get {} "u").method = RpVerb.get ∧
    RpVerb.get ≠ RpVerb.post := by
  refine ⟨rfl, rfl, rfl, rfl, rfl, rfl, ?_⟩
  intro h
  cases h

/-- C6 corrected: fetch dispatches GET via rp.get and POST via rp.post; every
other method string — HEAD, OPTIONS, PATCH, PUT, DELETE and any unrecognized
method included — falls through the default branch to rp.get, i.e. GET
behavior. -/
theorem fetch_dispatch (m : String) :
    fetchVerb "GET" = RpVerb.get ∧ fetchVerb "POST" = RpVerb.post ∧
    (m ≠ "POST" → fetchVerb m = RpVerb.get) := by
  refine ⟨rfl, rfl, ?_⟩
  intro h
  unfold fetchVerb
  split
  · rfl
  · exact absurd rfl h
  · rfl

/-- C6 corrected witness: DELETE is not POST, so it is dispatched as GET. -/
theorem fetch_dispatch_witness : fetchVerb "DELETE" = RpVerb.get :=
  (fetch_dispatch "DELETE").2.2 (by decide)

/-- C8: addInteraction inserts into the registry of interaction.port when that
port has a mock state (the id then maps to the interaction and other ports are
untouched); when the port has no mock state the call is a silent no-op: no
error is raised and the server state is unchanged. -/
theorem addInteraction_drop_or_insert (sv : ServerState) (id : String) (i : Interaction) :
    (∀ m, mapGet sv.mockMap i.port = some m →
      registryOf (sv.addInteraction id i) i.port = some (mapSet m.interactions id i) ∧
      lookupInteraction (sv.addInteraction id i) i.port id = some i ∧
      ∀ port, port ≠ i.port →
        registryOf (sv.addInteraction id i) port = registryOf sv port) ∧
    (mapGet sv.mockMap i.port = none → sv.addInteraction id i = sv) := by
  constructor
  · intro m hm
    refine ⟨?_, ?_, ?_⟩
    · simp [ServerState.addInteraction, hm, registryOf, mapGet_mapSet]
    · simp [ServerState.addInteraction, hm, lookupInteraction, registryOf, mapGet_mapSet]
    · intro port hport
      have hne : ¬ i.port = port := fun hc => hport hc.symm
      simp [ServerState.addInteraction, hm, registryOf, mapGet_mapSet, hne]
  · intro hm
    simp [ServerState.addInteraction, hm]

/-- C8 witness: on a started port the interaction is stored; on a server with
no mock state for the port the state is unchanged. -/
theorem addInteraction_drop_or_insert_witness :
    lookupInteraction
      ((ServerState.start { mockMap := [] } 3000).addInteraction "id1" demoInteraction)
      3000 "id1" = some demoInteraction ∧
    ServerState.addInteraction { mockMap := [] } "id1" demoInteraction = { mockMap := [] } :=
  ⟨((addInteraction_drop_or_insert
      (ServerState.start { mockMap := [] } 3000) "id1" demoInteraction).1
      { running := true, interactions := [] } (by rfl)).2.1,
   (addInteraction_drop_or_insert { mockMap := [] } "id1" demoInteraction).2 (by rfl)⟩

/-- C10: adding an interaction under an id already present in that port
registry replaces the stored interaction in place: the key sequence — hence
the registry size — is unchanged, the id now maps to the new interaction, and
every other id maps to what it mapped to before; no error is raised and no
second entry appears. -/
theorem addInteraction_overwrite (sv : ServerState) (id : String) (i : Interaction)
    (reg : List (String × Interaction)) (h : registryOf sv i.port = some reg)
    (hmem : id ∈ reg.map Prod.fst) :
    registryOf (sv.addInteraction id i) i.port = some (mapSet reg id i) ∧
    (mapSet reg id i).map Prod.fst = reg.map Prod.fst ∧
    (mapSet reg id i).length = reg.length ∧
    mapGet (mapSet reg id i) id = some i ∧
    (∀ q, q ≠ id → mapGet (mapSet reg id i) q = mapGet reg q) := by
  obtain ⟨m, hm, hreg⟩ : ∃ m, mapGet sv.mockMap i.port = some m ∧ m.interactions = reg := by
    cases hm0 : mapGet sv.mockMap i.port with
    | none => simp [registryOf, hm0] at h
    | some m0 =>
        refine ⟨m0, rfl, ?_⟩
        simpa [registryOf, hm0] using h
  have hkeys : (mapSet reg id i).map Prod.fst = reg.map Prod.fst := by
    rw [keys_mapSet, if_pos hmem]
  refine ⟨?_, hkeys, ?_, ?_, ?_⟩
  · simp [ServerState.addInteraction, hm, registryOf, mapGet_mapSet, hreg]
  · have := congrArg List.length hkeys
    simpa using this
  · rw [mapGet_mapSet, if_pos rfl]
  · intro q hq
    rw [mapGet_mapSet, if_neg (fun hc => hq hc.symm)]

/-- C10 witness: re-adding id1 with a different interaction on a one-entry
registry keeps the size at one and overwrites the stored value. -/
theorem addInteraction_overwrite_witness :
    registryOf
      (((ServerState.start { mockMap := [] } 3000).addInteraction "id1"
        { demoInteraction with willRespondWith := { status := 500 } }).addInteraction
        "id1" demoInteraction) 3000 = some (mapSet
          [("id1", { demoInteraction with willRespondWith := { status := 500 } })]
          "id1" demoInteraction) ∧
    mapSet [("id1", { demoInteraction with willRespondWith := { status := 500 } })]
      "id1" demoInteraction = [("id1", demoInteraction)] := by
  constructor
  · exact (addInteraction_overwrite
      ((ServerState.start { mockMap := [] } 3000).addInteraction "id1"
        { demoInteraction with willRespondWith := { status := 500 } })
      "id1" demoInteraction
      [("id1", { demoInteraction with willRespondWith := { status := 500 } })]
      (by rfl) (by simp)).1
  · rfl

/-- C4: ordering of one toss invocation: after the outbound call settles —
success and failure alike, since the trace does not depend on the fetch
outcome — each interaction is handed to the history store and then
deregistered, all history/deregistration steps follow the fetch and precede
validation, the exercised check precedes the expectation assertions, the
expectation assertions run exactly when every invocation interaction is
exercised, and after the invocation each id is gone from the registry of its
port. -/
theorem toss_lifecycle_order (sv : ServerState) (ixs : List (String × Interaction))
    (fetchResult : Except String ResponseRecord) (inbound : List (Nat × Request)) :
    List.Sublist
      ([Event.fetched] ++
        ((ixs.flatMap fun p => [Event.storedHistory p.1, Event.deregistered p.2.port p.1]) ++
         [Event.exercisedCheck]))
      (toss sv ixs fetchResult inbound).trace ∧
    (Event.expectationsCheck ∈ (toss sv ixs fetchResult inbound).trace ↔
      validateInteractions (specView (serveAll (registerAll sv ixs) inbound) ixs) = true) ∧
    (Event.expectationsCheck ∈ (toss sv ixs fetchResult inbound).trace →
      List.Sublist [Event.exercisedCheck, Event.expectationsCheck]
        (toss sv ixs fetchResult inbound).trace) ∧
    (goodKeys sv = true → ∀ p ∈ ixs,
      lookupInteraction (toss sv ixs fetchResult inbound).server p.2.port p.1 = none) := by
  have htr : (toss sv ixs fetchResult inbound).trace =
      (ixs.map fun p => Event.registered p.1) ++
      ([Event.fetched] ++
        ((ixs.flatMap fun p => [Event.storedHistory p.1, Event.deregistered p.2.port p.1]) ++
         (if validateInteractions (specView (serveAll (registerAll sv ixs) inbound) ixs)
          then [Event.exercisedCheck, Event.expectationsCheck]
          else [Event.exercisedCheck]))) := by
    simp [toss, List.append_assoc]
  refine ⟨?_, ?_, ?_, ?_⟩
  · rw [htr]
    refine List.Sublist.trans ?_ (List.sublist_append_right _ _)
    apply List.Sublist.append_left
    by_cases hpass :
        validateInteractions (specView (serveAll (registerAll sv ixs) inbound) ixs) = true
    · rw [if_pos hpass, show [Event.exercisedCheck, Event.expectationsCheck] =
        [Event.exercisedCheck] ++ [Event.expectationsCheck] from rfl,
        ← List.append_assoc]
      exact List.sublist_append_left _ _
    · rw [if_neg hpass]
  · rw [htr]
    by_cases hpass :
        validateInteractions (specView (serveAll (registerAll sv ixs) inbound) ixs) = true
    · rw [if_pos hpass]
      simp [hpass]
    · rw [if_neg hpass]
      rw [Bool.not_eq_true] at hpass
      simp [hpass]
  · intro hmem
    rw [htr] at hmem ⊢
    by_cases hpass :
        validateInteractions (specView (serveAll (registerAll sv ixs) inbound) ixs) = true
    · rw [if_pos hpass]
      exact ((List.sublist_append_right _ _).trans
        (List.sublist_append_right _ _)).trans (List.sublist_append_right _ _)
    · rw [if_neg hpass] at hmem
      exfalso
      simp at hmem
  · intro hgk p hp
    show lookupInteraction
      (deregisterAll (serveAll (registerAll sv ixs) inbound) ixs) p.2.port p.1 = none
    exact deregisterAll_removes ixs _
      (goodKeys_serveAll inbound _ (goodKeys_registerAll ixs sv hgk)) p hp

/-- C4 witness: one interaction on a started port, one matching inbound
request during the fetch window: after toss the id is gone from the port
registry and both validation phases appear in order in the trace. -/
theorem toss_lifecycle_order_witness :
    lookupInteraction
      (toss (ServerState.start { mockMap := [] } 3000) [("id1", demoInteraction)]
        (Except.ok { status := 200 }) [(3000, { method := "GET", path := "/a" })]).server
      3000 "id1" = none ∧
    List.Sublist [Event.exercisedCheck, Event.expectationsCheck]
      (toss (ServerState.start { mockMap := [] } 3000) [("id1", demoInteraction)]
        (Except.ok { status := 200 }) [(3000, { method := "GET", path := "/a" })]).trace := by
  constructor
  · exact (toss_lifecycle_order (ServerState.start { mockMap := [] } 3000)
      [("id1", demoInteraction)] (Except.ok { status := 200 })
      [(3000, { method := "GET", path := "/a" })]).2.2.2 (by rfl)
      ("id1", demoInteraction) (by simp)
  · exact (toss_lifecycle_order (ServerState.start { mockMap := [] } 3000)
      [("id1", demoInteraction)] (Except.ok { status := 200 })
      [(3000, { method := "GET", path := "/a" })]).2.2.1
      ((toss_lifecycle_order (ServerState.start { mockMap := [] } 3000)
        [("id1", demoInteraction)] (Except.ok { status := 200 })
        [(3000, { method := "GET", path := "/a" })]).2.1.mpr (by rfl))

/-- C7: a failed outbound call is caught and the error object is substituted
as the observed response rather than propagated: the invocation produces the
same trace and the same final server state as a successful call would, still
deregistering every interaction and reaching validation. -/
theorem toss_error_substituted (sv : ServerState) (ixs : List (String × Interaction))
    (inbound : List (Nat × Request)) (err : String) (r : ResponseRecord) :
    (toss sv ixs (Except.error err) inbound).response = Except.error err ∧
    (toss sv ixs (Except.error err) inbound).trace =
      (toss sv ixs (Except.ok r) inbound).trace ∧
    (toss sv ixs (Except.error err) inbound).server =
      (toss sv ixs (Except.ok r) inbound).server ∧
    Event.exercisedCheck ∈ (toss sv ixs (Except.error err) inbound).trace ∧
    (∀ p ∈ ixs, Event.deregistered p.2.port p.1 ∈
      (toss sv ixs (Except.error err) inbound).trace) := by
  refine ⟨rfl, rfl, rfl, ?_, ?_⟩
  · by_cases hpass :
        validateInteractions (specView (serveAll (registerAll sv ixs) inbound) ixs) = true
    · simp [toss, hpass]
    · rw [Bool.not_eq_true] at hpass
      simp [toss, hpass]
  · intro p hp
    have hmem : Event.deregistered p.2.port p.1 ∈
        ixs.flatMap (fun q => [Event.storedHistory q.1, Event.deregistered q.2.port q.1]) :=
      List.mem_flatMap.mpr ⟨p, hp, by simp⟩
    simp [toss, hmem]

/-- C7 witness: with one registered interaction and a network error, the
error is the observed response and the interaction is still deregistered. -/
theorem toss_error_substituted_witness :
    (toss (ServerState.start { mockMap := [] } 3000) [("id1", demoInteraction)]
      (Except.error "ECONNREFUSED") []).response = Except.error "ECONNREFUSED" ∧
    Event.deregistered 3000 "id1" ∈
      (toss (ServerState.start { mockMap := [] } 3000) [("id1", demoInteraction)]
        (Except.error "ECONNREFUSED") []).trace := by
  constructor
  · exact (toss_error_substituted (ServerState.start { mockMap := [] } 3000)
      [("id1", demoInteraction)] [] "ECONNREFUSED" { status := 200 }).1
  · exact (toss_error_substituted (ServerState.start { mockMap := [] } 3000)
      [("id1", demoInteraction)] [] "ECONNREFUSED" { status := 200 }).2.2.2.2
      ("id1", demoInteraction) (by simp)

/-- C9: registry invariants over arbitrary operation sequences: every
reachable port registry has pairwise-distinct interaction ids; an interaction
is created with exercised false; an exercised interaction never goes back to
false while it stays registered (only an add replacing the id can change
that); and a registered interaction flips from unexercised to exercised only
through the dispatch of a request on its port that its predicate matches, or
by being replaced wholesale by an add under the same id. -/
theorem registry_invariants :
    (∀ ops : List Op, goodKeys (run ops) = true) ∧
    (∀ port wreq wres, (mkInteraction port wreq wres).exercised = false) ∧
    (∀ sv op port id i i', goodKeys sv = true →
      lookupInteraction sv port id = some i → i.exercised = true →
      (∀ j : Interaction, op ≠ Op.add id j) →
      lookupInteraction (applyOp sv op) port id = some i' → i'.exercised = true) ∧
    (∀ sv op port id i i', goodKeys sv = true →
      lookupInteraction sv port id = some i → i.exercised = false →
      lookupInteraction (applyOp sv op) port id = some i' → i'.exercised = true →
      (∃ req, op = Op.handle port req ∧ matchesReq i req = true) ∨
      (∃ j, op = Op.add id j)) := by
  refine ⟨?_, ?_, ?_, ?_⟩
  · intro ops
    exact goodKeys_foldl ops _ rfl
  · intro port wreq wres
    rfl
  · intro sv op port id i i' hgk hlook hex hnot hlook'
    rcases lookupInteraction_applyOp sv op port id hgk with
      h | h | ⟨j, hop, _⟩ | ⟨req, i0, _, h0, hh⟩
    · rw [h] at hlook'
      cases hlook'
    · rw [h, hlook] at hlook'
      injection hlook' with e
      rw [← e]
      exact hex
    · exact absurd hop (hnot j)
    · rw [hlook] at h0
      injection h0 with e0
      rw [hh] at hlook'
      injection hlook' with e1
      rw [← e1, ← e0]
      by_cases hmr : matchesReq i req = true
      · simp [hmr]
      · simp [hmr, hex]
  · intro sv op port id i i' hgk hlook hex hlook' hex'
    rcases lookupInteraction_applyOp sv op port id hgk with
      h | h | ⟨j, hop, _⟩ | ⟨req, i0, hop, h0, hh⟩
    · rw [h] at hlook'
      cases hlook'
    · rw [h, hlook] at hlook'
      injection hlook' with e
      rw [← e] at hex'
      rw [hex] at hex'
      cases hex'
    · exact Or.inr ⟨j, hop⟩
    · rw [hlook] at h0
      injection h0 with e0
      rw [hh] at hlook'
      injection hlook' with e1
      by_cases hmr : matchesReq i req = true
      · exact Or.inl ⟨req, hop, hmr⟩
      · exfalso
        rw [← e0] at e1
        rw [if_neg hmr] at e1
        rw [← e1] at hex'
        rw [hex] at hex'
        cases hex'

/-- C9 witness: creation yields exercised false; stopping the port leaves an
exercised interaction exercised; and the unexercised demo interaction flips
to exercised via dispatch of a matching request (the only possibilities the
invariant allows besides replacement by add). -/
theorem registry_invariants_witness :
    (mkInteraction 3000 { method := "GET", path := "/a" } { status := 200 }).exercised
      = false ∧
    ({ demoInteraction with exercised := true } : Interaction).exercised = true ∧
    ((∃ req, Op.handle 3000 demoRequest = Op.handle (3000 : Nat) req ∧
        matchesReq demoInteraction req = true) ∨
      (∃ j, Op.handle 3000 demoRequest = Op.add "id1" j)) := by
  refine ⟨registry_invariants.2.1 3000 _ _, ?_, ?_⟩
  · exact registry_invariants.2.2.1 demoServerUsed (Op.stop 3000) 3000 "id1"
      { demoInteraction with exercised := true }
      { demoInteraction with exercised := true }
      (by decide) rfl rfl (fun j h => Op.noConfusion h) rfl
  · exact registry_invariants.2.2.2 demoServerFresh (Op.handle 3000 demoRequest) 3000 "id1"
      demoInteraction { demoInteraction with exercised := true }
      (by decide) rfl rfl rfl rfl

end Pactum
